import Mathlib

/-!
Verification of the acolyte subtitle-translation review engine.

The development shallowly embeds the two variants of the repository:

* `Acolyte.Engine` — the split-file variant (`engine.py`): a
  `TranslationManager` merging an original SRT sequence, an optional
  translation SRT sequence and an optional JSON status record into a list
  of `SubtitlePair`s, with cursor navigation, in-place mutation and save.
* `Acolyte.Logic` — the composite draft variant (`logic.py`): a JSON draft
  document with metadata and per-entry translation/status, mutated by the
  `translate`, `fix`, `status_toggle` commands, exported to SRT files, with
  a clip-extraction cache for `play`.

SRT parsing/serialization (the external `srt` library) is modelled from the
spec as a trusted lossless boundary: a subtitle file is represented by its
parsed entry sequence (spec §6: "round-trip must be lossless for index,
timing, and text").  Time offsets (`timedelta` / float seconds) are
modelled as rationals.  Python `dict`s keyed by entry index are modelled as
association lists with last-entry-wins lookup, matching dict-comprehension
semantics.
-/

namespace Acolyte

/-- Decimal digit characters of `n`, most significant first, with explicit
fuel (the fuel is irrelevant as long as it exceeds `n`; `natDigits` below
always supplies enough).  Models the digits of Python's `str()`. -/
def natDigitsAux : Nat → Nat → List Char
  | 0, _ => []
  | fuel + 1, n =>
    if n < 10 then [Char.ofNat (48 + n)]
    else natDigitsAux fuel (n / 10) ++ [Char.ofNat (48 + n % 10)]

/-- Canonical decimal digit string of a natural number. -/
def natDigits (n : Nat) : List Char := natDigitsAux (n + 1) n

/-- Characters of Python `str(i)` for an integer `i`. -/
def pyStrChars (i : Int) : List Char :=
  if i < 0 then '-' :: natDigits i.natAbs else natDigits i.toNat

/-- Python `str(i)` for an integer `i`: canonical decimal notation,
with a leading `-` for negative numbers. -/
def pyStr (i : Int) : String := ⟨pyStrChars i⟩

/-- Parse a non-empty all-digit character list as a natural number. -/
def parseDigits (cs : List Char) : Option Nat :=
  if cs.isEmpty then none
  else if cs.all Char.isDigit then
    some (cs.foldl (fun a c => a * 10 + (c.toNat - 48)) 0)
  else none

/-- Strip leading and trailing whitespace (Python `int()` ignores it). -/
def pyTrim (cs : List Char) : List Char :=
  ((cs.dropWhile Char.isWhitespace).reverse.dropWhile Char.isWhitespace).reverse

/-- Python `int(s)` on the characters of `s`: optional surrounding
whitespace, an optional single sign, then decimal digits; anything else is
a `ValueError`, modelled as `none`. -/
def pyIntChars (cs0 : List Char) : Option Int :=
  match pyTrim cs0 with
  | [] => none
  | c :: rest =>
    if c = '-' then (parseDigits rest).map (fun n : Nat => -(n : Int))
    else if c = '+' then (parseDigits rest).map (fun n : Nat => (n : Int))
    else (parseDigits (c :: rest)).map (fun n : Nat => (n : Int))

/-- Python `int(s)` (as used on status-record keys in `_load_data`). -/
def pyInt (s : String) : Option Int := pyIntChars s.data

/-- Python `str.removesuffix`. -/
def removeSuffix (s suf : String) : String :=
  if suf.data.isSuffixOf s.data then ⟨s.data.take (s.data.length - suf.data.length)⟩ else s

/-- `pathlib.PurePath(name).stem`: the final component without its last
suffix; a suffix must start after position 0 and before the last
character. -/
def pathStem (name : String) : String :=
  match name.data.reverse.findIdx? (· == '.') with
  | none => name
  | some r =>
    let i := name.data.length - 1 - r
    if 0 < i ∧ i < name.data.length - 1 then ⟨name.data.take i⟩ else name

/-- A parsed SRT entry (the `srt.Subtitle` objects used by both variants):
1-based integer index, start/end time offsets, text content. -/
structure Subtitle where
  index : Int
  start : Rat
  «end» : Rat
  content : String
deriving DecidableEq, Repr

namespace Engine

/-- `SubtitlePair` from `engine.py`: one original entry paired with its
translation and review status. -/
structure SubtitlePair where
  index : Int
  start : Rat
  «end» : Rat
  original_sub : Subtitle
  translated_sub : Subtitle
  is_approved : Bool
deriving DecidableEq, Repr

/-- Lookup in the dict `{sub.index: sub for sub in translations}` built by
`_load_data`: on duplicate indices the last entry wins, so we search the
reversed list. -/
def dictLookupSub (translations : List Subtitle) (k : Int) : Option Subtitle :=
  translations.reverse.find? (fun s => s.index == k)

/-- Lookup in the status dict `{int(k): v ...}`: last entry wins. -/
def dictLookupStatus (status_map : List (Int × Bool)) (k : Int) : Option Bool :=
  (status_map.reverse.find? (fun p => p.1 == k)).map Prod.snd

/-- The translation chosen for one original entry in `_load_data`: the
translation with matching index if present, otherwise a synthesized empty
subtitle carrying the original's own timing. -/
def mergeTrans (translations : List Subtitle) (orig : Subtitle) : Subtitle :=
  match dictLookupSub translations orig.index with
  | some t => t
  | none => { index := orig.index, start := orig.start, «end» := orig.«end», content := "" }

/-- The merge loop of `_load_data` (engine.py lines 81-106): one pair per
original entry, in original order, with translation looked up by index
(else synthesized empty) and status looked up by index (else `False`). -/
def loadPairs (originals translations : List Subtitle)
    (status_map : List (Int × Bool)) : List SubtitlePair :=
  originals.map (fun orig =>
    { index := orig.index
      start := orig.start
      «end» := orig.«end»
      original_sub := orig
      translated_sub := mergeTrans translations orig
      is_approved := (dictLookupStatus status_map orig.index).getD false })

/-- The observable condition of one on-disk source file: absent, present
but failing to read/parse (`open`/`json.load`/`srt.parse` raises), or
present with parsed content `α`. -/
inductive SrcFile (α : Type) where
  | missing : SrcFile α
  | unparseable : SrcFile α
  | parsed (content : α) : SrcFile α

/-- Construction-time failures of `TranslationManager.__init__`
(uncaught exceptions escaping `_load_data`). -/
inductive LoadError where
  | sourceUnreadable
  | translationUnparseable
  | statusUnparseable
  | statusRecordCorrupt
deriving DecidableEq, Repr

/-- Decode the raw JSON status object: `{int(k): v for k, v in
raw_json.items()}` — every key is converted with `int()`, and any
non-integer key raises `ValueError` (aborting construction). -/
def decodeStatusEntries : List (String × Bool) → Except LoadError (List (Int × Bool))
  | [] => .ok []
  | (k, v) :: rest =>
    match pyInt k with
    | none => .error .statusRecordCorrupt
    | some i =>
      match decodeStatusEntries rest with
      | .ok tail => .ok ((i, v) :: tail)
      | .error e => .error e

/-- The original source (`srt.parse` of the mandatory original file):
missing or unparseable is fatal. -/
def load_originals : SrcFile (List Subtitle) → Except LoadError (List Subtitle)
  | .missing => .error .sourceUnreadable
  | .unparseable => .error .sourceUnreadable
  | .parsed l => .ok l

/-- The status record in `_load_data`: a missing file leaves the map
empty (`if self.status_path.exists(): ... else: pass`); a present file is
read, JSON-parsed and key-converted, and any failure propagates. -/
def load_status : SrcFile (List (String × Bool)) → Except LoadError (List (Int × Bool))
  | .missing => .ok []
  | .unparseable => .error .statusUnparseable
  | .parsed kvs => decodeStatusEntries kvs

/-- The translation sequence in `_load_data`: missing file leaves the map
empty; a present file that fails to parse propagates the exception. -/
def load_translations : SrcFile (List Subtitle) → Except LoadError (List Subtitle)
  | .missing => .ok []
  | .unparseable => .error .translationUnparseable
  | .parsed l => .ok l

/-- `_load_data` (engine.py lines 60-106): read the original sequence
(fatal on failure), then the status record, then the translation sequence,
then merge. -/
def load_data (orig trans : SrcFile (List Subtitle))
    (statusSrc : SrcFile (List (String × Bool))) :
    Except LoadError (List SubtitlePair) :=
  match load_originals orig with
  | .error e => .error e
  | .ok originals =>
    match load_status statusSrc with
    | .error e => .error e
    | .ok status_map =>
      match load_translations trans with
      | .error e => .error e
      | .ok translations => .ok (loadPairs originals translations status_map)

/-- The mutable state of `TranslationManager`: the merged pair list and
the cursor.  Construction (`__init__`) sets `current_index = 0`. -/
structure TranslationManager where
  pairs : List SubtitlePair
  current_index : Nat
deriving DecidableEq, Repr

/-- A freshly constructed manager over an already-merged pair list. -/
def initManager (pairs : List SubtitlePair) : TranslationManager :=
  { pairs := pairs, current_index := 0 }

/-- `previous_idx`: `self.current_index -= 1 if self.current_index > 0 else 0`. -/
def previous_idx (m : TranslationManager) : TranslationManager :=
  { m with current_index := m.current_index - (if m.current_index > 0 then 1 else 0) }

/-- `next_idx`: `self.current_index += 1 if self.current_index <
len(self.pairs) - 1 else 0`. -/
def next_idx (m : TranslationManager) : TranslationManager :=
  { m with current_index :=
      m.current_index + (if m.current_index < m.pairs.length - 1 then 1 else 0) }

/-- `validate_current_translation`: unconditionally marks the current pair
approved.  (Out-of-range cursor, which raises `IndexError` in the source,
is modelled as a no-op; all theorems keep the cursor in range.) -/
def validate_current_translation (m : TranslationManager) : TranslationManager :=
  match m.pairs[m.current_index]? with
  | none => m
  | some pair =>
    { m with pairs := m.pairs.set m.current_index { pair with is_approved := true } }

/-- `update_current_translation`: overwrite the current pair's translated
text, then call `validate_current_translation`. -/
def update_current_translation (m : TranslationManager) (new_text : String) :
    TranslationManager :=
  validate_current_translation
    (match m.pairs[m.current_index]? with
     | none => m
     | some pair =>
       let pair' := { pair with translated_sub := { pair.translated_sub with content := new_text } }
       { m with pairs := m.pairs.set m.current_index pair' })

/-- `update_current_original`: overwrite the current pair's original text. -/
def update_current_original (m : TranslationManager) (new_text : String) :
    TranslationManager :=
  match m.pairs[m.current_index]? with
  | none => m
  | some pair =>
    let pair' := { pair with original_sub := { pair.original_sub with content := new_text } }
    { m with pairs := m.pairs.set m.current_index pair' }

/-- The three artifacts written by `save` (engine.py lines 187-204),
each represented by its parsed content: the status dict (here as an
association list in pair order; the JSON object has one key per distinct
index with the last pair's value, which the last-wins lookup
`dictLookupStatus` reproduces), the recomposed original sequence, and the
recomposed translation sequence. -/
structure SaveOutputs where
  status_file : List (Int × Bool)
  original_file : List Subtitle
  translated_file : List Subtitle
deriving DecidableEq, Repr

/-- The file contents written by `save`, computed from the pair list. -/
def save_files (pairs : List SubtitlePair) : SaveOutputs :=
  { status_file := pairs.map (fun pair => (pair.index, pair.is_approved))
    original_file := pairs.map (fun pair => pair.original_sub)
    translated_file := pairs.map (fun pair => pair.translated_sub) }

/-- `save`: writes the three artifacts and leaves the in-memory state
untouched. -/
def save (m : TranslationManager) : SaveOutputs × TranslationManager :=
  (save_files m.pairs, m)

/-- `json.dump` of the status dict: keys become `str(index)`. -/
def dumpStatus (status_map : List (Int × Bool)) : List (String × Bool) :=
  status_map.map (fun p => (pyStr p.1, p.2))

/-- A single cursor move requested by the UI. -/
inductive NavOp where
  | next
  | prev
deriving DecidableEq, Repr

/-- Apply one navigation operation. -/
def applyNav : NavOp → TranslationManager → TranslationManager
  | .next, m => next_idx m
  | .prev, m => previous_idx m

/-- Apply a finite sequence of navigation operations in order. -/
def runNav (ops : List NavOp) (m : TranslationManager) : TranslationManager :=
  ops.foldl (fun m op => applyNav op m) m

/-- The fields of a pair named by the save round-trip property: index,
timing, original text, translated text, status. -/
def pairView (p : SubtitlePair) : Int × Rat × Rat × String × String × Bool :=
  (p.index, p.start, p.«end», p.original_sub.content, p.translated_sub.content, p.is_approved)

end Engine

namespace Logic

/-- One record of the draft document's `subtitles` array. -/
structure DraftEntry where
  index : Int
  start_seconds : Rat
  end_seconds : Rat
  original : String
  translation : String
  status : String
deriving DecidableEq, Repr

/-- The draft document's `metadata` object. -/
structure DraftMetadata where
  original_lang : String
  target_lang : String
  created_at : String
  updated_at : String
  audio_file : Option String
deriving DecidableEq, Repr

/-- The composite draft document (`<name>.draft.json`). -/
structure DraftData where
  metadata : DraftMetadata
  subtitles : List DraftEntry
deriving DecidableEq, Repr

/-- `_find_entry_by_index`: first entry with the given index, if any. -/
def find_entry_by_index (subtitles_list : List DraftEntry) (index : Int) :
    Option DraftEntry :=
  subtitles_list.find? (fun entry => entry.index == index)

/-- The in-place mutation of the dict returned by `_find_entry_by_index`
is modelled as replacing the first entry with the given index. -/
def update_entry_by_index (subtitles_list : List DraftEntry) (index : Int)
    (f : DraftEntry → DraftEntry) : List DraftEntry :=
  match subtitles_list with
  | [] => []
  | entry :: rest =>
    if entry.index == index then f entry :: rest
    else entry :: update_entry_by_index rest index f

/-- Errors reported by the per-entry commands (`typer.Exit(code=1)`). -/
inductive CmdError where
  | entryNotFound
deriving DecidableEq, Repr

/-- `_save_draft_data`: stamp `metadata.updated_at` with the current UTC
time (passed in as `now_utc`) and rewrite the whole document. -/
def save_draft_data (now_utc : String) (data : DraftData) : DraftData :=
  { data with metadata := { data.metadata with updated_at := now_utc } }

/-- The `translate` command (logic.py lines 145-171): set the entry's
`translation` to the given text and its `status` to `"verified"`, then
save (stamping `updated_at`); a missing index is a reported error. -/
def translate (data : DraftData) (index : Int) (text : String) (now_utc : String) :
    Except CmdError DraftData :=
  match find_entry_by_index data.subtitles index with
  | none => .error .entryNotFound
  | some _ =>
    let subs := update_entry_by_index data.subtitles index
      (fun entry => { entry with translation := text, status := "verified" })
    .ok (save_draft_data now_utc { data with subtitles := subs })

/-- The `fix` command (logic.py lines 174-198): set the entry's
`original` to the given text and its `status` to `"unverified"`, then
save; a missing index is a reported error. -/
def fix (data : DraftData) (index : Int) (text : String) (now_utc : String) :
    Except CmdError DraftData :=
  match find_entry_by_index data.subtitles index with
  | none => .error .entryNotFound
  | some _ =>
    let subs := update_entry_by_index data.subtitles index
      (fun entry => { entry with original := text, status := "unverified" })
    .ok (save_draft_data now_utc { data with subtitles := subs })

/-- The `status_toggle` command: invert the entry's status string. -/
def status_toggle (data : DraftData) (index : Int) (now_utc : String) :
    Except CmdError DraftData :=
  match find_entry_by_index data.subtitles index with
  | none => .error .entryNotFound
  | some _ =>
    let subs := update_entry_by_index data.subtitles index
      (fun entry =>
        { entry with status := if entry.status = "unverified" then "verified" else "unverified" })
    .ok (save_draft_data now_utc { data with subtitles := subs })

/-- `_build_srt_list`: convert draft entries to subtitle entries for one
content key; a falsy (empty) content is replaced by `"..."`. -/
def build_srt_list (subtitles_list : List DraftEntry)
    (content_key : DraftEntry → String) : List Subtitle :=
  subtitles_list.map (fun entry =>
    { index := entry.index
      start := entry.start_seconds
      «end» := entry.end_seconds
      content := if content_key entry = "" then "..." else content_key entry })

/-- The `export` command (logic.py lines 264-315), returned as the list of
(file name, composed SRT content) writes it performs.  File contents are
represented by their parsed entry sequences (`srt.compose` is the trusted
lossless boundary).  The draft file itself is never written. -/
def «export» (draft_file_name : String) (data : DraftData) :
    List (String × List Subtitle) :=
  let original_srt_name := removeSuffix draft_file_name ".draft.json"
  let base_name := pathStem original_srt_name
  let lang_orig0 := data.metadata.original_lang
  let lang_target0 := data.metadata.target_lang
  let lang_orig := if lang_orig0 = "unknown" then "original" else lang_orig0
  let lang_target := if lang_target0 = "unknown" then "target" else lang_target0
  [ (base_name ++ "_" ++ lang_orig ++ ".srt", build_srt_list data.subtitles (fun e => e.original)),
    (base_name ++ "_" ++ lang_target ++ ".srt", build_srt_list data.subtitles (fun e => e.translation)) ]

/-- Modelled from the spec: `tempfile.gettempdir()` is an external,
session-constant directory path. -/
def tempdir : String := "/tmp"

/-- The clip-cache directory `Path(tempfile.gettempdir()) / "acolyte"`. -/
def app_cache_dir : String := tempdir ++ "/acolyte"

/-- The cached clip path computed by `play` for a draft file and entry
index: `{base}_clip_{index}.mp3` inside the cache directory. -/
def clip_path (draft_file_name : String) (index : Int) : String :=
  app_cache_dir ++ "/" ++ removeSuffix draft_file_name ".srt.draft.json"
    ++ "_clip_" ++ pyStr index ++ ".mp3"

/-- Errors reported by `play`. -/
inductive PlayError where
  | audioNotConfigured
  | audioFileMissing
  | entryNotFound
deriving DecidableEq, Repr

/-- The success output of `play`: the clip path it prints and whether it
was answered from the cache (`"cache": "hit"`) or by running ffmpeg
(`"cache": "miss"`). -/
structure PlayOutcome where
  clip_path : String
  cache_hit : Bool
deriving DecidableEq, Repr

/-- The `play` command (logic.py lines 318-413) over an explicit file
system state `fs` (the set of existing file paths): check the configured
audio file, look up the entry, and either answer from the cache or extract
the clip.  Modelled from the spec: the ffmpeg invocation (the external
extraction tool) succeeds and creates the output file. -/
def play (fs : List String) (draft_file_name : String) (data : DraftData)
    (index : Int) : Except PlayError (PlayOutcome × List String) :=
  match data.metadata.audio_file with
  | none => .error .audioNotConfigured
  | some audio =>
    if audio ∈ fs then
      match find_entry_by_index data.subtitles index with
      | none => .error .entryNotFound
      | some _ =>
        let p := clip_path draft_file_name index
        if p ∈ fs then .ok ({ clip_path := p, cache_hit := true }, fs)
        else .ok ({ clip_path := p, cache_hit := false }, p :: fs)
    else .error .audioFileMissing

end Logic

/-! ### Concrete sample data (used by witnesses and counterexamples) -/

/-- A sample original subtitle entry with index 1. -/
def sampleSub : Subtitle := { index := 1, start := 0, «end» := 1, content := "hello" }

/-- A sample translation entry with index 2 (no matching original when the
original sequence is just `[sampleSub]`). -/
def sampleSub2 : Subtitle := { index := 2, start := 5, «end» := 6, content := "mundo" }

/-- A sample merged pair for index 1. -/
def samplePair : Engine.SubtitlePair :=
  { index := 1, start := 0, «end» := 1, original_sub := sampleSub,
    translated_sub := { index := 1, start := 0, «end» := 1, content := "" },
    is_approved := false }

/-- A sample draft entry with index 1 and verified status. -/
def sampleEntry : Logic.DraftEntry :=
  { index := 1, start_seconds := 0, end_seconds := 2, original := "hello",
    translation := "olá", status := "verified" }

/-- A second sample draft entry with index 2. -/
def sampleEntry2 : Logic.DraftEntry :=
  { index := 2, start_seconds := 3, end_seconds := 4, original := "world",
    translation := "", status := "unverified" }

/-- A sample draft document with a configured audio file. -/
def sampleDraft : Logic.DraftData :=
  { metadata := { original_lang := "en", target_lang := "unknown",
                  created_at := "2026-01-01T00:00:00+00:00",
                  updated_at := "2026-01-01T00:00:00+00:00",
                  audio_file := some "/media/audio.mp3" },
    subtitles := [sampleEntry, sampleEntry2] }

/-- The draft obtained from `sampleDraft` by `translate --index 2 --text
"olá"` at time `"now2"`. -/
def sampleDraftTranslated : Logic.DraftData :=
  { metadata := { original_lang := "en", target_lang := "unknown",
                  created_at := "2026-01-01T00:00:00+00:00",
                  updated_at := "now2",
                  audio_file := some "/media/audio.mp3" },
    subtitles := [sampleEntry,
      { index := 2, start_seconds := 3, end_seconds := 4, original := "world",
        translation := "olá", status := "verified" }] }

/-- The draft obtained from `sampleDraft` by `fix --index 1 --text
"fixed"` at time `"now3"`: entry 1 was `verified` and is reset. -/
def sampleDraftFixed : Logic.DraftData :=
  { metadata := { original_lang := "en", target_lang := "unknown",
                  created_at := "2026-01-01T00:00:00+00:00",
                  updated_at := "now3",
                  audio_file := some "/media/audio.mp3" },
    subtitles := [{ index := 1, start_seconds := 0, end_seconds := 2, original := "fixed",
                    translation := "olá", status := "unverified" },
                  sampleEntry2] }

/-! ## Helper lemmas: decimal digits and `int(str(i))` round-trip -/

theorem digitChar_facts (d : Nat) (h : d < 10) :
    (Char.ofNat (48 + d)).isDigit = true ∧ (Char.ofNat (48 + d)).toNat = 48 + d := by
  interval_cases d <;> exact ⟨by decide, by decide⟩

theorem isDigit_props (c : Char) (h : c.isDigit = true) :
    c.isWhitespace = false ∧ c ≠ '-' ∧ c ≠ '+' := by
  have h1 : c ≠ ' ' := fun e => by rw [e] at h; exact absurd h (by decide)
  have h2 : c ≠ '\t' := fun e => by rw [e] at h; exact absurd h (by decide)
  have h3 : c ≠ '\r' := fun e => by rw [e] at h; exact absurd h (by decide)
  have h4 : c ≠ '\n' := fun e => by rw [e] at h; exact absurd h (by decide)
  have h5 : c ≠ '-' := fun e => by rw [e] at h; exact absurd h (by decide)
  have h6 : c ≠ '+' := fun e => by rw [e] at h; exact absurd h (by decide)
  refine ⟨?_, h5, h6⟩
  rw [Char.isWhitespace]
  simp [h1, h2, h3, h4]

theorem natDigitsAux_spec (f : Nat) : ∀ n, n < f →
    natDigitsAux f n ≠ [] ∧
    (∀ c ∈ natDigitsAux f n, c.isDigit = true) ∧
    (∀ a : Nat, (natDigitsAux f n).foldl (fun a c => a * 10 + (c.toNat - 48)) a
      = a * 10 ^ (natDigitsAux f n).length + n) := by
  induction f with
  | zero => intro n h; omega
  | succ f ih =>
    intro n hn
    by_cases h10 : n < 10
    · have hc := digitChar_facts n h10
      simp only [natDigitsAux, if_pos h10]
      refine ⟨by simp, by simp [hc.1], fun a => ?_⟩
      simp [hc.2]
    · have hdiv : n / 10 < f := by
        have h1 : n / 10 < n := Nat.div_lt_self (by omega) (by omega)
        omega
      obtain ⟨ihne, ihdig, ihfold⟩ := ih (n / 10) hdiv
      have hc := digitChar_facts (n % 10) (Nat.mod_lt n (by omega))
      simp only [natDigitsAux, if_neg h10]
      refine ⟨by simp, ?_, fun a => ?_⟩
      · intro c hcmem
        rcases List.mem_append.mp hcmem with hm | hm
        · exact ihdig c hm
        · simp at hm; rw [hm]; exact hc.1
      · rw [List.foldl_append, ihfold a]
        simp [hc.2, List.length_append]
        have hpow : 10 ^ ((natDigitsAux f (n / 10)).length + 1)
            = 10 ^ (natDigitsAux f (n / 10)).length * 10 := pow_succ 10 _
        rw [hpow]
        have hdm : 10 * (n / 10) + n % 10 = n := Nat.div_add_mod n 10
        ring_nf
        omega

theorem natDigits_spec (n : Nat) :
    natDigits n ≠ [] ∧ (∀ c ∈ natDigits n, c.isDigit = true) ∧
    (natDigits n).foldl (fun a c => a * 10 + (c.toNat - 48)) 0 = n := by
  obtain ⟨h1, h2, h3⟩ := natDigitsAux_spec (n + 1) n (Nat.lt_succ_self n)
  exact ⟨h1, h2, by rw [natDigits, h3 0]; simp⟩

theorem parseDigits_natDigits (n : Nat) : parseDigits (natDigits n) = some n := by
  obtain ⟨h1, h2, h3⟩ := natDigits_spec n
  rw [parseDigits]
  rw [if_neg (by simpa [List.isEmpty_iff] using h1), if_pos (List.all_eq_true.mpr h2)]
  rw [h3]

theorem dropWhile_eq_self_of_all {α} (p : α → Bool) (l : List α)
    (h : ∀ c ∈ l, p c = false) : l.dropWhile p = l := by
  cases l with
  | nil => rfl
  | cons a l => rw [List.dropWhile_cons, h a (List.mem_cons_self a l)]; simp

theorem pyTrim_eq_self (cs : List Char) (h : ∀ c ∈ cs, c.isWhitespace = false) :
    pyTrim cs = cs := by
  rw [pyTrim, dropWhile_eq_self_of_all _ _ h,
    dropWhile_eq_self_of_all _ _ (fun c hc => h c (List.mem_reverse.mp hc)),
    List.reverse_reverse]

theorem pyInt_pyStr (i : Int) : pyInt (pyStr i) = some i := by
  rw [pyInt, pyStr, pyStrChars]
  by_cases hi : i < 0
  · rw [if_pos hi]
    obtain ⟨hne, hdig, _⟩ := natDigits_spec i.natAbs
    have htrim : pyTrim ('-' :: natDigits i.natAbs) = '-' :: natDigits i.natAbs := by
      apply pyTrim_eq_self
      intro c hc
      rcases List.mem_cons.mp hc with hm | hm
      · rw [hm]; decide
      · exact (isDigit_props c (hdig c hm)).1
    show pyIntChars ('-' :: natDigits i.natAbs) = some i
    rw [pyIntChars]
    simp only [htrim, if_true, parseDigits_natDigits, Option.map_some',
      Option.some.injEq]
    omega
  · rw [if_neg hi]
    obtain ⟨hne, hdig, _⟩ := natDigits_spec i.toNat
    have htrim : pyTrim (natDigits i.toNat) = natDigits i.toNat :=
      pyTrim_eq_self _ (fun c hc => (isDigit_props c (hdig c hc)).1)
    show pyIntChars (natDigits i.toNat) = some i
    obtain ⟨c, rest, hcons⟩ := List.exists_cons_of_ne_nil hne
    have htrim' : pyTrim (c :: rest) = c :: rest := by rw [← hcons]; exact htrim
    have hc : c.isDigit = true := hdig c (by rw [hcons]; exact List.mem_cons_self c rest)
    obtain ⟨_, hminus, hplus⟩ := isDigit_props c hc
    rw [hcons, pyIntChars, htrim']
    simp only [if_neg hminus, if_neg hplus]
    rw [← hcons, parseDigits_natDigits]
    simp only [Option.map_some', Option.some.injEq]
    omega

/-! ## Navigation (claim C3) -/

theorem next_idx_spec (m : Engine.TranslationManager)
    (h : m.current_index < m.pairs.length) :
    (Engine.next_idx m).current_index =
      (if m.current_index = m.pairs.length - 1 then m.current_index
       else m.current_index + 1) := by
  rw [Engine.next_idx]
  dsimp only
  split_ifs <;> omega

theorem previous_idx_spec (m : Engine.TranslationManager) :
    (Engine.previous_idx m).current_index =
      (if m.current_index = 0 then m.current_index else m.current_index - 1) := by
  rw [Engine.previous_idx]
  dsimp only
  split_ifs <;> omega

theorem applyNav_inv (op : Engine.NavOp) (m : Engine.TranslationManager)
    (h : m.current_index < m.pairs.length) :
    (Engine.applyNav op m).pairs = m.pairs ∧
    (Engine.applyNav op m).current_index < m.pairs.length := by
  cases op with
  | next =>
    refine ⟨rfl, ?_⟩
    rw [show (Engine.applyNav .next m) = Engine.next_idx m from rfl, Engine.next_idx]
    dsimp only
    split_ifs <;> omega
  | prev =>
    refine ⟨rfl, ?_⟩
    rw [show (Engine.applyNav .prev m) = Engine.previous_idx m from rfl, Engine.previous_idx]
    dsimp only
    split_ifs <;> omega

theorem runNav_inv (ops : List Engine.NavOp) :
    ∀ m : Engine.TranslationManager, m.current_index < m.pairs.length →
      (Engine.runNav ops m).pairs = m.pairs ∧
      (Engine.runNav ops m).current_index < m.pairs.length := by
  induction ops with
  | nil => intro m h; exact ⟨rfl, h⟩
  | cons op ops ih =>
    intro m h
    obtain ⟨hp, hc⟩ := applyNav_inv op m h
    have hstep : Engine.runNav (op :: ops) m = Engine.runNav ops (Engine.applyNav op m) := rfl
    obtain ⟨ihp, ihc⟩ := ih (Engine.applyNav op m) (by rw [hp]; exact hc)
    rw [hstep, ihp, hp]
    exact ⟨rfl, by rw [← hp]; exact ihc⟩

/-- C3: for a non-empty pair sequence, `next_idx` increments the cursor by
one except at the last position, where it is a no-op, and `previous_idx`
decrements it by one except at 0, where it is a no-op; neither changes the
pair list, and after any finite sequence of navigation operations from the
freshly constructed state (cursor 0) the cursor stays in
`0 ≤ current_index < len(pairs)`. -/
theorem C3_navigation_clamping
    (pairs : List Engine.SubtitlePair) (ops : List Engine.NavOp) (h : pairs ≠ []) :
    (Engine.runNav ops (Engine.initManager pairs)).pairs = pairs ∧
    (Engine.runNav ops (Engine.initManager pairs)).current_index < pairs.length ∧
    (∀ m : Engine.TranslationManager, m.current_index < m.pairs.length →
      (Engine.next_idx m).current_index =
        (if m.current_index = m.pairs.length - 1 then m.current_index
         else m.current_index + 1) ∧
      (Engine.previous_idx m).current_index =
        (if m.current_index = 0 then m.current_index else m.current_index - 1) ∧
      (Engine.next_idx m).pairs = m.pairs ∧
      (Engine.previous_idx m).pairs = m.pairs) := by
  have h0 : (Engine.initManager pairs).current_index < (Engine.initManager pairs).pairs.length := by
    have := List.length_pos.mpr h
    simpa [Engine.initManager] using this
  obtain ⟨hp, hc⟩ := runNav_inv ops (Engine.initManager pairs) h0
  exact ⟨hp, hc, fun m hm =>
    ⟨next_idx_spec m hm, previous_idx_spec m, rfl, rfl⟩⟩

/-- Witness for C3 at a concrete one-pair state and a concrete operation
sequence. -/
theorem C3_navigation_clamping_witness :
    (([samplePair] : List Engine.SubtitlePair) ≠ []) ∧
    ((Engine.runNav [.next, .next, .prev] (Engine.initManager [samplePair])).pairs
        = [samplePair] ∧
      (Engine.runNav [.next, .next, .prev] (Engine.initManager [samplePair])).current_index
        < [samplePair].length ∧
      (∀ m : Engine.TranslationManager, m.current_index < m.pairs.length →
        (Engine.next_idx m).current_index =
          (if m.current_index = m.pairs.length - 1 then m.current_index
           else m.current_index + 1) ∧
        (Engine.previous_idx m).current_index =
          (if m.current_index = 0 then m.current_index else m.current_index - 1) ∧
        (Engine.next_idx m).pairs = m.pairs ∧
        (Engine.previous_idx m).pairs = m.pairs)) :=
  ⟨by simp, C3_navigation_clamping [samplePair] [.next, .next, .prev] (by simp)⟩

/-! ## Draft entry update decomposition (shared by C2, C5, C10) -/

theorem update_entry_decomp (l : List Logic.DraftEntry) (i : Int)
    (f : Logic.DraftEntry → Logic.DraftEntry) (e : Logic.DraftEntry)
    (h : Logic.find_entry_by_index l i = some e) :
    ∃ pre post, l = pre ++ e :: post ∧ (∀ x ∈ pre, x.index ≠ i) ∧ e.index = i ∧
      Logic.update_entry_by_index l i f = pre ++ f e :: post := by
  induction l with
  | nil => simp [Logic.find_entry_by_index] at h
  | cons a l ih =>
    rw [Logic.find_entry_by_index, List.find?_cons] at h
    by_cases ha : (a.index == i) = true
    · rw [ha] at h
      obtain rfl : a = e := by simpa using h
      refine ⟨[], l, rfl, by simp, by simpa using ha, ?_⟩
      simp [Logic.update_entry_by_index, ha]
    · have ha' : (a.index == i) = false := by simpa using ha
      rw [ha'] at h
      obtain ⟨pre, post, hl, hpre, hei, hupd⟩ := ih h
      refine ⟨a :: pre, post, by rw [hl]; rfl, ?_, hei, ?_⟩
      · intro x hx
        rcases List.mem_cons.mp hx with hx | hx
        · rw [hx]; simpa using ha
        · exact hpre x hx
      · simp only [Logic.update_entry_by_index, if_neg ha, hupd]
        rfl

/-! ## Claim C2: status derivation on setting a translation -/

theorem validate_spec (m : Engine.TranslationManager)
    (h : m.current_index < m.pairs.length) :
    (Engine.validate_current_translation m).pairs[m.current_index]?.map
      (fun p => p.is_approved) = some true := by
  have hpair : m.pairs[m.current_index]? = some m.pairs[m.current_index] :=
    List.getElem?_eq_getElem h
  rw [Engine.validate_current_translation, hpair]
  dsimp only
  rw [List.getElem?_set_self h]
  rfl

/-- C2 counterexample: the claim says setting the current translation to a
whitespace-only text leaves/returns the pair `unverified`; in the code
`update_current_translation` calls `validate_current_translation`, which
approves the pair unconditionally, so the pair ends up `verified` even for
the whitespace-only text `" "`. -/
theorem C2_counterexample :
    ¬ (∀ (m : Engine.TranslationManager) (t : String),
        m.current_index < m.pairs.length →
        ((Engine.update_current_translation m t).pairs[m.current_index]?.map
            (fun p => p.is_approved)) = some (decide (⟨pyTrim t.data⟩ ≠ ("" : String)))) := by
  intro hclaim
  have h := hclaim { pairs := [samplePair], current_index := 0 } " " (by simp)
  rw [show Engine.update_current_translation { pairs := [samplePair], current_index := 0 } " "
      = { pairs := [{ samplePair with
            translated_sub := { samplePair.translated_sub with content := " " },
            is_approved := true }], current_index := 0 } from rfl] at h
  simp only [List.getElem?_cons_zero, Option.map_some'] at h
  have hws : (⟨pyTrim (" " : String).data⟩ : String) = "" := by decide
  rw [hws] at h
  simp at h

/-- C2 amended: in both variants, setting a translation marks the entry
verified unconditionally — `update_current_translation` always sets
`is_approved := true` (via `validate_current_translation`), and the draft
`translate` command always sets `status := "verified"`, regardless of
whether the new text is empty or whitespace-only. -/
theorem C2_amended_set_translation_always_verifies :
    (∀ (m : Engine.TranslationManager) (t : String),
      m.current_index < m.pairs.length →
      ((Engine.update_current_translation m t).pairs[m.current_index]?.map
          (fun p => p.is_approved)) = some true) ∧
    (∀ (d : Logic.DraftData) (i : Int) (t now : String) (d' : Logic.DraftData),
      Logic.translate d i t now = .ok d' →
      ∃ pre e post, d.subtitles = pre ++ e :: post ∧ e.index = i ∧
        d'.subtitles = pre ++ ({ e with translation := t, status := "verified" }) :: post) := by
  constructor
  · intro m t h
    have hpair : m.pairs[m.current_index]? = some m.pairs[m.current_index] :=
      List.getElem?_eq_getElem h
    rw [Engine.update_current_translation, hpair]
    exact validate_spec _ (by simpa using h)
  · intro d i t now d' h
    rw [Logic.translate] at h
    cases hfind : Logic.find_entry_by_index d.subtitles i with
    | none => rw [hfind] at h; exact absurd h (by simp)
    | some e =>
      rw [hfind] at h
      obtain ⟨pre, post, hl, _, hei, hupd⟩ := update_entry_decomp d.subtitles i
        (fun entry => { entry with translation := t, status := "verified" }) e hfind
      refine ⟨pre, e, post, hl, hei, ?_⟩
      have hd' : Logic.save_draft_data now
          { d with
            subtitles := Logic.update_entry_by_index d.subtitles i
              (fun entry => { entry with translation := t, status := "verified" }) } = d' :=
        Except.ok.inj h
      rw [← hd']
      rw [Logic.save_draft_data]
      dsimp only
      exact hupd

/-- Witness for the amended C2 at a concrete manager, draft and text. -/
theorem C2_amended_witness :
    (({ pairs := [samplePair], current_index := 0 } :
        Engine.TranslationManager).current_index
      < ({ pairs := [samplePair], current_index := 0 } :
        Engine.TranslationManager).pairs.length) ∧
    ((Engine.update_current_translation
        { pairs := [samplePair], current_index := 0 } " ").pairs[0]?.map
        (fun p => p.is_approved)) = some true :=
  ⟨by simp, C2_amended_set_translation_always_verifies.1
    { pairs := [samplePair], current_index := 0 } " " (by simp)⟩

/-! ## Claim C1: merge completeness -/

theorem dictLookupSub_eq_none (T : List Subtitle) (k : Int)
    (h : k ∉ T.map Subtitle.index) : Engine.dictLookupSub T k = none := by
  rw [Engine.dictLookupSub, List.find?_eq_none]
  intro x hx hbeq
  exact h (List.mem_map.mpr ⟨x, List.mem_reverse.mp hx, beq_iff_eq.mp hbeq⟩)

theorem dictLookupStatus_eq_none (S : List (Int × Bool)) (k : Int)
    (h : k ∉ S.map Prod.fst) : Engine.dictLookupStatus S k = none := by
  rw [Engine.dictLookupStatus]
  rw [show S.reverse.find? (fun p => p.1 == k) = none from ?_]
  · rfl
  · rw [List.find?_eq_none]
    intro x hx hbeq
    exact h (List.mem_map.mpr ⟨x, List.mem_reverse.mp hx, beq_iff_eq.mp hbeq⟩)

/-- C1: the merge produces exactly one pair per original entry, in
original order (so translation entries with no matching original index
contribute nothing); each pair inherits the original's index, timing and
entry; its status is the one recorded in the status map for that index
(defaulting to unverified when absent); and an original with no matching
translation index gets a synthesized empty translation carrying the
original's timing. -/
theorem C1_merge_completeness (O T : List Subtitle) (S : List (Int × Bool))
    (i : Nat) (o : Subtitle) (p : Engine.SubtitlePair)
    (ho : O[i]? = some o) (hp : (Engine.loadPairs O T S)[i]? = some p) :
    (Engine.loadPairs O T S).length = O.length ∧
    (Engine.loadPairs O T S).map Engine.SubtitlePair.index = O.map Subtitle.index ∧
    p.index = o.index ∧ p.start = o.start ∧ p.«end» = o.«end» ∧
    p.original_sub = o ∧
    p.is_approved = (Engine.dictLookupStatus S o.index).getD false ∧
    (o.index ∉ S.map Prod.fst → p.is_approved = false) ∧
    (o.index ∉ T.map Subtitle.index →
      p.translated_sub
        = { index := o.index, start := o.start, «end» := o.«end», content := "" }) := by
  rw [Engine.loadPairs, List.getElem?_map, ho, Option.map_some'] at hp
  obtain rfl := (Option.some.inj hp).symm
  refine ⟨by simp [Engine.loadPairs], ?_, rfl, rfl, rfl, rfl, rfl, ?_, ?_⟩
  · rw [Engine.loadPairs, List.map_map]
    rfl
  · intro habs
    dsimp only
    rw [dictLookupStatus_eq_none S o.index habs]
    rfl
  · intro habs
    dsimp only
    rw [Engine.mergeTrans, dictLookupSub_eq_none T o.index habs]

/-- Witness for C1 at a one-entry original sequence, an orphan
translation entry (index 2, absent from the originals) and an empty status
record. -/
theorem C1_merge_completeness_witness :
    (([sampleSub] : List Subtitle)[0]? = some sampleSub) ∧
    ((Engine.loadPairs [sampleSub] [sampleSub2] [])[0]? = some samplePair) ∧
    ((Engine.loadPairs [sampleSub] [sampleSub2] []).length
        = ([sampleSub] : List Subtitle).length ∧
      (Engine.loadPairs [sampleSub] [sampleSub2] []).map Engine.SubtitlePair.index
        = ([sampleSub] : List Subtitle).map Subtitle.index ∧
      samplePair.index = sampleSub.index ∧ samplePair.start = sampleSub.start ∧
      samplePair.«end» = sampleSub.«end» ∧
      samplePair.original_sub = sampleSub ∧
      samplePair.is_approved = (Engine.dictLookupStatus [] sampleSub.index).getD false ∧
      (sampleSub.index ∉ ([] : List (Int × Bool)).map Prod.fst →
        samplePair.is_approved = false) ∧
      (sampleSub.index ∉ ([sampleSub2] : List Subtitle).map Subtitle.index →
        samplePair.translated_sub
          = { index := sampleSub.index, start := sampleSub.start,
              «end» := sampleSub.«end», content := "" })) :=
  ⟨rfl, by decide,
    C1_merge_completeness [sampleSub] [sampleSub2] [] 0 sampleSub samplePair rfl (by decide)⟩

/-! ## Claim C5: draft mutation isolation of `translate` -/

/-- C5: a successful `translate` changes only the targeted entry's
`translation` and `status` fields and `metadata.updated_at`; every other
entry and every other metadata field is carried over unchanged (the
targeted entry keeps its index, timing and original text). -/
theorem C5_translate_isolation (d : Logic.DraftData) (i : Int) (t now : String)
    (d' : Logic.DraftData) (h : Logic.translate d i t now = .ok d') :
    d'.metadata.original_lang = d.metadata.original_lang ∧
    d'.metadata.target_lang = d.metadata.target_lang ∧
    d'.metadata.created_at = d.metadata.created_at ∧
    d'.metadata.audio_file = d.metadata.audio_file ∧
    d'.metadata.updated_at = now ∧
    ∃ pre e post, d.subtitles = pre ++ e :: post ∧ e.index = i ∧
      (∀ x ∈ pre, x.index ≠ i) ∧
      d'.subtitles = pre ++ ({ e with translation := t, status := "verified" }) :: post := by
  rw [Logic.translate] at h
  cases hfind : Logic.find_entry_by_index d.subtitles i with
  | none => rw [hfind] at h; exact absurd h (by simp)
  | some e =>
    rw [hfind] at h
    obtain ⟨pre, post, hl, hpre, hei, hupd⟩ := update_entry_decomp d.subtitles i
      (fun entry => { entry with translation := t, status := "verified" }) e hfind
    obtain rfl := Except.ok.inj h
    exact ⟨rfl, rfl, rfl, rfl, rfl, pre, e, post, hl, hei, hpre, hupd⟩

/-- Witness for C5: translating entry 2 of the sample draft. -/
theorem C5_translate_isolation_witness :
    (Logic.translate sampleDraft 2 "olá" "now2" = .ok sampleDraftTranslated) ∧
    (sampleDraftTranslated.metadata.original_lang = sampleDraft.metadata.original_lang ∧
      sampleDraftTranslated.metadata.target_lang = sampleDraft.metadata.target_lang ∧
      sampleDraftTranslated.metadata.created_at = sampleDraft.metadata.created_at ∧
      sampleDraftTranslated.metadata.audio_file = sampleDraft.metadata.audio_file ∧
      sampleDraftTranslated.metadata.updated_at = "now2" ∧
      ∃ pre e post, sampleDraft.subtitles = pre ++ e :: post ∧ e.index = 2 ∧
        (∀ x ∈ pre, x.index ≠ 2) ∧
        sampleDraftTranslated.subtitles
          = pre ++ ({ e with translation := "olá", status := "verified" }) :: post) :=
  ⟨rfl, C5_translate_isolation sampleDraft 2 "olá" "now2" sampleDraftTranslated rfl⟩

/-! ## Claim C10: `fix` always resets status to unverified -/

/-- C10: a successful `fix` replaces the targeted entry's original text
and unconditionally sets its status to `"unverified"` (even when it was
`"verified"`), leaving the other fields and entries as the decomposition
shows. -/
theorem C10_fix_resets_status (d : Logic.DraftData) (i : Int) (t now : String)
    (d' : Logic.DraftData) (h : Logic.fix d i t now = .ok d') :
    ∃ pre e post, d.subtitles = pre ++ e :: post ∧ e.index = i ∧
      (∀ x ∈ pre, x.index ≠ i) ∧
      d'.subtitles = pre ++ ({ e with original := t, status := "unverified" }) :: post := by
  rw [Logic.fix] at h
  cases hfind : Logic.find_entry_by_index d.subtitles i with
  | none => rw [hfind] at h; exact absurd h (by simp)
  | some e =>
    rw [hfind] at h
    obtain ⟨pre, post, hl, hpre, hei, hupd⟩ := update_entry_decomp d.subtitles i
      (fun entry => { entry with original := t, status := "unverified" }) e hfind
    obtain rfl := Except.ok.inj h
    exact ⟨pre, e, post, hl, hei, hpre, hupd⟩

/-- Witness for C10: fixing entry 1 of the sample draft, whose status was
`"verified"`; the resulting entry is `"unverified"`. -/
theorem C10_fix_resets_status_witness :
    (Logic.fix sampleDraft 1 "fixed" "now3" = .ok sampleDraftFixed) ∧
    (∃ pre e post, sampleDraft.subtitles = pre ++ e :: post ∧ e.index = 1 ∧
      (∀ x ∈ pre, x.index ≠ 1) ∧
      sampleDraftFixed.subtitles
        = pre ++ ({ e with original := "fixed", status := "unverified" }) :: post) :=
  ⟨rfl, C10_fix_resets_status sampleDraft 1 "fixed" "now3" sampleDraftFixed rfl⟩

/-! ## Claim C6: handling of missing/unreadable optional sources -/

/-- C6 counterexample: the claim says an unreadable/unparseable optional
source is treated like a missing one (construction succeeds with that
source empty); in the code only a *missing* file is skipped — a present
status file that fails to parse, or a present translation file that fails
to parse, aborts construction with an error instead of yielding the
"treated as empty" result. -/
theorem C6_counterexample :
    Engine.load_data (.parsed [sampleSub]) .missing .unparseable
        = .error .statusUnparseable ∧
    Engine.load_data (.parsed [sampleSub]) .missing .unparseable
        ≠ .ok (Engine.loadPairs [sampleSub] [] []) ∧
    Engine.load_data (.parsed [sampleSub]) .unparseable .missing
        = .error .translationUnparseable ∧
    Engine.load_data (.parsed [sampleSub]) .unparseable .missing
        ≠ .ok (Engine.loadPairs [sampleSub] [] []) := by
  refine ⟨rfl, ?_, rfl, ?_⟩ <;> intro h <;> exact absurd h (by simp [Engine.load_data,
    Engine.load_originals, Engine.load_status, Engine.load_translations])

/-- C6 amended: for a readable original source, a *missing* translation or
status source is treated as empty — construction behaves exactly as if
that source were a present, empty file — and with both optional sources
missing construction succeeds with empty translations and unverified
statuses; an optional source that exists but is unreadable or unparseable
aborts construction instead. -/
theorem C6_amended_missing_is_empty (o : List Subtitle)
    (t : Engine.SrcFile (List Subtitle))
    (s : Engine.SrcFile (List (String × Bool))) :
    Engine.load_data (.parsed o) .missing s = Engine.load_data (.parsed o) (.parsed []) s ∧
    Engine.load_data (.parsed o) t .missing = Engine.load_data (.parsed o) t (.parsed []) ∧
    Engine.load_data (.parsed o) .missing .missing = .ok (Engine.loadPairs o [] []) := by
  refine ⟨?_, ?_, rfl⟩
  · rfl
  · rfl

/-! ## Claim C7: a structurally invalid status record is fatal -/

theorem decodeStatusEntries_mem_corrupt (kvs : List (String × Bool)) :
    ∀ k v, (k, v) ∈ kvs → pyInt k = none →
      Engine.decodeStatusEntries kvs = .error .statusRecordCorrupt := by
  induction kvs with
  | nil => intro k v hmem _; exact absurd hmem (by simp)
  | cons a rest ih =>
    intro k v hmem hk
    rw [Engine.decodeStatusEntries]
    rcases List.mem_cons.mp hmem with hm | hm
    · rw [← hm, hk]
    · cases ha : pyInt a.1 with
      | none => rfl
      | some j => rw [ih k v hm hk]

/-- C7: if the status file is present and parses as JSON but some key is
not a string-encoded integer, engine construction fails with the
corrupt-status error and produces no pair sequence at all, no matter what
the translation source holds. -/
theorem C7_invalid_status_fatal (o : List Subtitle)
    (t : Engine.SrcFile (List Subtitle)) (kvs : List (String × Bool))
    (k : String) (v : Bool) (hmem : (k, v) ∈ kvs) (hk : pyInt k = none) :
    Engine.load_data (.parsed o) t (.parsed kvs)
      = .error .statusRecordCorrupt := by
  rw [Engine.load_data]
  rw [show Engine.load_originals (.parsed o) = .ok o from rfl]
  rw [show Engine.load_status (.parsed kvs) = Engine.decodeStatusEntries kvs from rfl]
  rw [decodeStatusEntries_mem_corrupt kvs k v hmem hk]

/-- Witness for C7: one status record whose single key `"x"` is not an
integer. -/
theorem C7_invalid_status_fatal_witness :
    (("x", true) ∈ [(("x" : String), true)]) ∧ pyInt "x" = none ∧
    Engine.load_data (.parsed [sampleSub]) .missing (.parsed [("x", true)])
      = .error .statusRecordCorrupt :=
  ⟨by simp, by decide,
    C7_invalid_status_fatal [sampleSub] .missing [("x", true)] "x" true (by simp) (by decide)⟩

/-! ## Claim C8: export naming and draft non-mutation -/

theorem srt_name_ne_draft_name (a n : String)
    (hn : (".draft.json" : String).data.IsSuffix n.data)
    (ha : ∃ u, a.data = u ++ (".srt" : String).data) : a ≠ n := by
  intro he
  obtain ⟨pre, hpre⟩ := hn
  obtain ⟨u, hu⟩ := ha
  have h1 : a.data.getLast? = some 't' := by
    rw [hu, List.getLast?_append]; rfl
  have h2 : n.data.getLast? = some 'n' := by
    rw [← hpre, List.getLast?_append]; rfl
  rw [he, h2] at h1
  exact absurd (Option.some.inj h1) (by decide)

/-- C8: `export` writes exactly two subtitle files, named
`<base>_<lang>.srt` from the configured language codes with the literal
segments `original`/`target` substituted when the respective code is
`"unknown"`; when `target_lang = "unknown"` the second file's name
contains the literal segment `target`; and no write targets the draft
file itself (its name ends in `.draft.json`, the written names in
`.srt`). -/
theorem C8_export_naming (n : String) (d : Logic.DraftData)
    (hn : (".draft.json" : String).data.IsSuffix n.data) :
    (Logic.«export» n d).map Prod.fst =
      [pathStem (removeSuffix n ".draft.json") ++ "_"
          ++ (if d.metadata.original_lang = "unknown" then "original"
              else d.metadata.original_lang) ++ ".srt",
        pathStem (removeSuffix n ".draft.json") ++ "_"
          ++ (if d.metadata.target_lang = "unknown" then "target"
              else d.metadata.target_lang) ++ ".srt"] ∧
    (d.metadata.target_lang = "unknown" →
      ∃ u v, (pathStem (removeSuffix n ".draft.json") ++ "_"
          ++ (if d.metadata.target_lang = "unknown" then "target"
              else d.metadata.target_lang) ++ ".srt").data
        = u ++ ("target" : String).data ++ v) ∧
    (∀ w ∈ Logic.«export» n d, w.1 ≠ n) := by
  refine ⟨rfl, ?_, ?_⟩
  · intro htarget
    rw [htarget]
    refine ⟨(pathStem (removeSuffix n ".draft.json") ++ "_").data, (".srt" : String).data, ?_⟩
    simp
  · intro w hw
    have hsrt : ∃ u, w.1.data = u ++ (".srt" : String).data := by
      rcases List.mem_cons.mp hw with hm | hm
      · rw [hm]
        exact ⟨(pathStem (removeSuffix n ".draft.json") ++ "_"
            ++ (if d.metadata.original_lang = "unknown" then "original"
                else d.metadata.original_lang)).data, by simp⟩
      · rcases List.mem_cons.mp hm with hm2 | hm2
        · rw [hm2]
          exact ⟨(pathStem (removeSuffix n ".draft.json") ++ "_"
              ++ (if d.metadata.target_lang = "unknown" then "target"
                  else d.metadata.target_lang)).data, by simp⟩
        · exact absurd hm2 (by simp)
    exact srt_name_ne_draft_name w.1 n hn hsrt

/-- Witness for C8: a draft named `movie.srt.draft.json` with
`target_lang = "unknown"`. -/
theorem C8_export_naming_witness :
    ((".draft.json" : String).data.IsSuffix ("movie.srt.draft.json" : String).data) ∧
    ((Logic.«export» "movie.srt.draft.json" sampleDraft).map Prod.fst =
      [pathStem (removeSuffix "movie.srt.draft.json" ".draft.json") ++ "_"
          ++ (if sampleDraft.metadata.original_lang = "unknown" then "original"
              else sampleDraft.metadata.original_lang) ++ ".srt",
        pathStem (removeSuffix "movie.srt.draft.json" ".draft.json") ++ "_"
          ++ (if sampleDraft.metadata.target_lang = "unknown" then "target"
              else sampleDraft.metadata.target_lang) ++ ".srt"] ∧
      (sampleDraft.metadata.target_lang = "unknown" →
        ∃ u v, (pathStem (removeSuffix "movie.srt.draft.json" ".draft.json") ++ "_"
            ++ (if sampleDraft.metadata.target_lang = "unknown" then "target"
                else sampleDraft.metadata.target_lang) ++ ".srt").data
          = u ++ ("target" : String).data ++ v) ∧
      (∀ w ∈ Logic.«export» "movie.srt.draft.json" sampleDraft, w.1 ≠ "movie.srt.draft.json")) :=
  ⟨⟨("movie.srt" : String).data, by decide⟩,
    C8_export_naming "movie.srt.draft.json" sampleDraft
      ⟨("movie.srt" : String).data, by decide⟩⟩

/-! ## Claim C9: clip-extraction cache -/

/-- C9: two successive successful `play` requests for the same draft and
index return the same clip path, the second is always answered from the
cache, and the external extraction tool runs at most once across the two
calls (a run is a cache miss). -/
theorem C9_clip_cache (fs : List String) (n : String) (d : Logic.DraftData) (i : Int)
    (r1 r2 : Logic.PlayOutcome) (fs1 fs2 : List String)
    (h1 : Logic.play fs n d i = .ok (r1, fs1))
    (h2 : Logic.play fs1 n d i = .ok (r2, fs2)) :
    r1.clip_path = r2.clip_path ∧ r2.cache_hit = true ∧
    ((if r1.cache_hit then 0 else 1) + (if r2.cache_hit then 0 else 1) : Nat) ≤ 1 := by
  rw [Logic.play] at h1 h2
  cases haud : d.metadata.audio_file with
  | none => rw [haud] at h1; exact absurd h1 (by simp)
  | some audio =>
    rw [haud] at h1 h2
    dsimp only at h1 h2
    by_cases hafs : audio ∈ fs
    · rw [if_pos hafs] at h1
      cases hent : Logic.find_entry_by_index d.subtitles i with
      | none => rw [hent] at h1; exact absurd h1 (by simp)
      | some e =>
        rw [hent] at h1 h2
        dsimp only at h1 h2
        by_cases hp : Logic.clip_path n i ∈ fs
        · rw [if_pos hp] at h1
          obtain rfl := congrArg Prod.fst (Except.ok.inj h1)
          obtain rfl := congrArg Prod.snd (Except.ok.inj h1)
          rw [if_pos hafs, if_pos hp] at h2
          obtain rfl := congrArg Prod.fst (Except.ok.inj h2)
          exact ⟨rfl, rfl, by simp⟩
        · rw [if_neg hp] at h1
          obtain rfl := congrArg Prod.fst (Except.ok.inj h1)
          obtain rfl := congrArg Prod.snd (Except.ok.inj h1)
          have hafs2 : audio ∈ Logic.clip_path n i :: fs := List.mem_cons_of_mem _ hafs
          have hp2 : Logic.clip_path n i ∈ Logic.clip_path n i :: fs :=
            List.mem_cons_self _ _
          rw [if_pos hafs2, if_pos hp2] at h2
          obtain rfl := congrArg Prod.fst (Except.ok.inj h2)
          exact ⟨rfl, rfl, by simp⟩
    · rw [if_neg hafs] at h1
      exact absurd h1 (by simp)

/-- Witness for C9: the sample draft with its configured audio file
present; the first call misses the cache and creates the clip, the second
hits it. -/
theorem C9_clip_cache_witness :
    (Logic.play ["/media/audio.mp3"] "movie.srt.draft.json" sampleDraft 1
        = .ok ({ clip_path := Logic.clip_path "movie.srt.draft.json" 1, cache_hit := false },
            [Logic.clip_path "movie.srt.draft.json" 1, "/media/audio.mp3"])) ∧
    (Logic.play [Logic.clip_path "movie.srt.draft.json" 1, "/media/audio.mp3"]
        "movie.srt.draft.json" sampleDraft 1
        = .ok ({ clip_path := Logic.clip_path "movie.srt.draft.json" 1, cache_hit := true },
            [Logic.clip_path "movie.srt.draft.json" 1, "/media/audio.mp3"])) ∧
    (({ clip_path := Logic.clip_path "movie.srt.draft.json" 1, cache_hit := false }
        : Logic.PlayOutcome).clip_path
      = ({ clip_path := Logic.clip_path "movie.srt.draft.json" 1, cache_hit := true }
        : Logic.PlayOutcome).clip_path ∧
      ({ clip_path := Logic.clip_path "movie.srt.draft.json" 1, cache_hit := true }
        : Logic.PlayOutcome).cache_hit = true ∧
      ((if ({ clip_path := Logic.clip_path "movie.srt.draft.json" 1, cache_hit := false }
            : Logic.PlayOutcome).cache_hit then 0 else 1)
        + (if ({ clip_path := Logic.clip_path "movie.srt.draft.json" 1, cache_hit := true }
            : Logic.PlayOutcome).cache_hit then 0 else 1) : Nat) ≤ 1) := by
  have hmiss : Logic.play ["/media/audio.mp3"] "movie.srt.draft.json" sampleDraft 1
      = .ok ({ clip_path := Logic.clip_path "movie.srt.draft.json" 1, cache_hit := false },
          [Logic.clip_path "movie.srt.draft.json" 1, "/media/audio.mp3"]) := rfl
  have hhit : Logic.play [Logic.clip_path "movie.srt.draft.json" 1, "/media/audio.mp3"]
      "movie.srt.draft.json" sampleDraft 1
      = .ok ({ clip_path := Logic.clip_path "movie.srt.draft.json" 1, cache_hit := true },
          [Logic.clip_path "movie.srt.draft.json" 1, "/media/audio.mp3"]) := rfl
  exact ⟨hmiss, hhit,
    C9_clip_cache ["/media/audio.mp3"] "movie.srt.draft.json" sampleDraft 1 _ _ _ _ hmiss hhit⟩

/-! ## Claim C4: save idempotence and round-trip -/

theorem mergeTrans_index (T : List Subtitle) (o : Subtitle) :
    (Engine.mergeTrans T o).index = o.index := by
  rw [Engine.mergeTrans]
  cases hf : Engine.dictLookupSub T o.index with
  | none => rfl
  | some t =>
    rw [Engine.dictLookupSub] at hf
    have hp := List.find?_some hf
    show t.index = o.index
    simpa using hp

theorem mergeTrans_content_congr (T : List Subtitle) (o₁ o₂ : Subtitle)
    (h : o₁.index = o₂.index) :
    (Engine.mergeTrans T o₁).content = (Engine.mergeTrans T o₂).content := by
  rw [Engine.mergeTrans, Engine.mergeTrans, Engine.dictLookupSub, Engine.dictLookupSub, h]
  cases T.reverse.find? (fun s => s.index == o₂.index) <;> rfl

theorem reverse_find_index (O : List Subtitle) (o : Subtitle) (ho : o ∈ O) :
    ∃ o₂, O.reverse.find? (fun s => s.index == o.index) = some o₂ ∧ o₂.index = o.index := by
  have hsome : (O.reverse.find? (fun s => s.index == o.index)).isSome :=
    List.find?_isSome.mpr ⟨o, List.mem_reverse.mpr ho, by simp⟩
  obtain ⟨o₂, ho₂⟩ := Option.isSome_iff_exists.mp hsome
  have hp := List.find?_some ho₂
  exact ⟨o₂, ho₂, by simpa using hp⟩

theorem dictLookupSub_map (O : List Subtitle) (g : Subtitle → Subtitle)
    (hg : ∀ x, (g x).index = x.index) (k : Int) :
    Engine.dictLookupSub (O.map g) k
      = (O.reverse.find? (fun s => s.index == k)).map g := by
  rw [Engine.dictLookupSub, ← List.map_reverse, List.find?_map]
  have hpred : ((fun s => s.index == k) ∘ g) = (fun s => s.index == k) :=
    funext (fun x => by simp [Function.comp, hg x])
  rw [hpred]

theorem dictLookupStatus_map (O : List Subtitle) (a : Subtitle → Bool) (k : Int) :
    Engine.dictLookupStatus (O.map (fun x => (x.index, a x))) k
      = (O.reverse.find? (fun s => s.index == k)).map a := by
  rw [Engine.dictLookupStatus, ← List.map_reverse, List.find?_map, Option.map_map]
  rfl

theorem mergeTrans_map_content (O T : List Subtitle) (o : Subtitle) (ho : o ∈ O) :
    (Engine.mergeTrans (O.map (Engine.mergeTrans T)) o).content
      = (Engine.mergeTrans T o).content := by
  obtain ⟨o₂, hfind, hidx⟩ := reverse_find_index O o ho
  have h1 : Engine.dictLookupSub (O.map (Engine.mergeTrans T)) o.index
      = some (Engine.mergeTrans T o₂) := by
    rw [dictLookupSub_map O (Engine.mergeTrans T) (mergeTrans_index T) o.index, hfind]
    rfl
  rw [show Engine.mergeTrans (O.map (Engine.mergeTrans T)) o = Engine.mergeTrans T o₂ from by
    rw [Engine.mergeTrans, h1]]
  exact mergeTrans_content_congr T o₂ o hidx

theorem dictLookupStatus_map_getD (O : List Subtitle) (S : List (Int × Bool))
    (o : Subtitle) (ho : o ∈ O) :
    (Engine.dictLookupStatus
        (O.map (fun x => (x.index, (Engine.dictLookupStatus S x.index).getD false)))
        o.index).getD false
      = (Engine.dictLookupStatus S o.index).getD false := by
  obtain ⟨o₂, hfind, hidx⟩ := reverse_find_index O o ho
  rw [dictLookupStatus_map O
    (fun x => (Engine.dictLookupStatus S x.index).getD false) o.index, hfind]
  simp [hidx]

theorem save_files_original (O T : List Subtitle) (S : List (Int × Bool)) :
    (Engine.save_files (Engine.loadPairs O T S)).original_file = O := by
  rw [Engine.save_files, Engine.loadPairs]
  dsimp only
  rw [List.map_map]
  exact List.map_id' O

theorem save_files_translated (O T : List Subtitle) (S : List (Int × Bool)) :
    (Engine.save_files (Engine.loadPairs O T S)).translated_file
      = O.map (Engine.mergeTrans T) := by
  rw [Engine.save_files, Engine.loadPairs]
  dsimp only
  rw [List.map_map]
  rfl

theorem save_files_status (O T : List Subtitle) (S : List (Int × Bool)) :
    (Engine.save_files (Engine.loadPairs O T S)).status_file
      = O.map (fun o => (o.index, (Engine.dictLookupStatus S o.index).getD false)) := by
  rw [Engine.save_files, Engine.loadPairs]
  dsimp only
  rw [List.map_map]
  rfl

theorem decode_dumpStatus (S : List (Int × Bool)) :
    Engine.decodeStatusEntries (Engine.dumpStatus S) = .ok S := by
  induction S with
  | nil => rfl
  | cons a rest ih =>
    rw [Engine.dumpStatus, List.map_cons, Engine.decodeStatusEntries, pyInt_pyStr]
    rw [show (rest.map (fun p => (pyStr p.1, p.2))) = Engine.dumpStatus rest from rfl, ih]

theorem load_data_parsed (O T : List Subtitle) (S : List (Int × Bool)) :
    Engine.load_data (.parsed O) (.parsed T) (.parsed (Engine.dumpStatus S))
      = .ok (Engine.loadPairs O T S) := by
  rw [Engine.load_data,
    show Engine.load_originals (.parsed O) = .ok O from rfl,
    show Engine.load_status (.parsed (Engine.dumpStatus S))
      = Engine.decodeStatusEntries (Engine.dumpStatus S) from rfl,
    decode_dumpStatus,
    show Engine.load_translations (.parsed T) = .ok T from rfl]

theorem load_data_ok_inv (orig trans : Engine.SrcFile (List Subtitle))
    (statusSrc : Engine.SrcFile (List (String × Bool)))
    (P : List Engine.SubtitlePair)
    (h : Engine.load_data orig trans statusSrc = .ok P) :
    ∃ O T S, orig = .parsed O ∧ Engine.load_translations trans = .ok T ∧
      Engine.load_status statusSrc = .ok S ∧ P = Engine.loadPairs O T S := by
  cases orig with
  | missing => exact absurd h (by simp [Engine.load_data, Engine.load_originals])
  | unparseable => exact absurd h (by simp [Engine.load_data, Engine.load_originals])
  | parsed O =>
    rw [Engine.load_data, show Engine.load_originals (.parsed O) = .ok O from rfl] at h
    cases hs : Engine.load_status statusSrc with
    | error e => rw [hs] at h; exact absurd h (by simp)
    | ok S =>
      rw [hs] at h
      cases ht : Engine.load_translations trans with
      | error e => rw [ht] at h; exact absurd h (by simp)
      | ok T =>
        rw [ht] at h
        exact ⟨O, T, S, rfl, rfl, rfl, (Except.ok.inj h).symm⟩

/-- C4: constructing the engine, saving with no edits, and re-constructing
from the written status, original and translation files yields a pair
sequence equal in index, timing, original text, translated text and
status to the first; and, since `save` leaves the in-memory state
untouched, a second save with no intervening edits produces identical
output files. -/
theorem C4_save_roundtrip (orig trans : Engine.SrcFile (List Subtitle))
    (statusSrc : Engine.SrcFile (List (String × Bool)))
    (P : List Engine.SubtitlePair)
    (h : Engine.load_data orig trans statusSrc = .ok P) :
    (Engine.save ((Engine.save { pairs := P, current_index := 0 }).2)).1
      = (Engine.save { pairs := P, current_index := 0 }).1 ∧
    ∃ P', Engine.load_data (.parsed (Engine.save_files P).original_file)
        (.parsed (Engine.save_files P).translated_file)
        (.parsed (Engine.dumpStatus (Engine.save_files P).status_file)) = .ok P' ∧
      P'.map Engine.pairView = P.map Engine.pairView := by
  obtain ⟨O, T, S, rfl, ht, hs, rfl⟩ := load_data_ok_inv orig trans statusSrc P h
  refine ⟨rfl,
    Engine.loadPairs O (O.map (Engine.mergeTrans T))
      (O.map (fun o => (o.index, (Engine.dictLookupStatus S o.index).getD false))),
    ?_, ?_⟩
  · rw [save_files_original, save_files_translated, save_files_status]
    exact load_data_parsed O (O.map (Engine.mergeTrans T))
      (O.map (fun o => (o.index, (Engine.dictLookupStatus S o.index).getD false)))
  · rw [Engine.loadPairs, Engine.loadPairs, List.map_map, List.map_map]
    apply List.map_congr_left
    intro o ho
    dsimp only [Function.comp, Engine.pairView]
    rw [mergeTrans_map_content O T o ho, dictLookupStatus_map_getD O S o ho]

/-- Witness for C4: a one-entry original with no translation and no
status file. -/
theorem C4_save_roundtrip_witness :
    (Engine.load_data (.parsed [sampleSub]) .missing .missing
      = .ok (Engine.loadPairs [sampleSub] [] [])) ∧
    ((Engine.save ((Engine.save
          { pairs := Engine.loadPairs [sampleSub] [] [], current_index := 0 }).2)).1
        = (Engine.save
          { pairs := Engine.loadPairs [sampleSub] [] [], current_index := 0 }).1 ∧
      ∃ P', Engine.load_data
          (.parsed (Engine.save_files (Engine.loadPairs [sampleSub] [] [])).original_file)
          (.parsed (Engine.save_files (Engine.loadPairs [sampleSub] [] [])).translated_file)
          (.parsed (Engine.dumpStatus
            (Engine.save_files (Engine.loadPairs [sampleSub] [] [])).status_file)) = .ok P' ∧
        P'.map Engine.pairView = (Engine.loadPairs [sampleSub] [] []).map Engine.pairView) :=
  ⟨rfl, C4_save_roundtrip (.parsed [sampleSub]) .missing .missing
    (Engine.loadPairs [sampleSub] [] []) rfl⟩

end Acolyte
